import Mathlib

/-!
# SSACFGValidator (libyul/backends/evm/SSACFGValidator.h)

A shallow embedding of the validator class declared in `SSACFGValidator.h`:
its state members, its constructor, and the member functions whose bodies the
header carries (`consumeUnaryExpression`, `currentBlock`).  Member functions
that the header only declares are either taken as parameters (when a function
of the header calls them) or modelled from the specification, and are marked
as such.

Conventions
* `std::optional<T>` is `Option T`, `std::vector<T>` is `List T`,
  `std::set<T>` is `Finset T`, `std::map<K, V>` is `AList` (unique keys).
* A pointer that may be null is an `Option`.
* `size_t` is a `Nat`; its width `w` is a parameter where the maximum matters.
* A member function that mutates the validator takes the validator and
  returns the new one; a function that may throw returns `Except`.
-/

namespace Yul

/-! ## Identity model (handles of the graph and of the scope) -/

/-- Modelled from the spec: `SSACFG::ValueId` (SSAControlFlowGraph.h is not
part of the sources): the handle of one SSA value; ordered, as `std::set`
needs. -/
abbrev ValueId := Nat

/-- Modelled from the spec: `SSACFG::BlockId` (SSAControlFlowGraph.h is not
part of the sources): the handle of one basic block. -/
abbrev BlockId := Nat

/-- Modelled from the spec: `Scope::Variable const*` (libyul/Scope.h is not
part of the sources): a lexical variable, identified by its address. -/
abbrev Variable := Nat

/-- Modelled from the spec: `YulName` (libyul/YulName.h is not part of the
sources): the name of an identifier. -/
abbrev YulName := String

/-- The value of `std::numeric_limits<size_t>::max()` for a `w`-bit `size_t`. -/
def sizeMax (w : Nat) : Nat := 2 ^ w - 1

/-- Modelled from the spec: the process-fatal failure raised by a failed
`yulAssert` (libyul/Exceptions.h is not part of the sources), in the two
error classes the validator has. -/
inductive Fatal
  | structuralMismatch
  | bindingInconsistency
deriving DecidableEq, Repr

/-! ## Syntax tree (libyul/AST.h, consumed read-only) -/

/-- Modelled from the spec: the AST node `Identifier` (libyul/AST.h is not part
of the sources); an identifier read, carrying its name. -/
structure Identifier where
  name : YulName
deriving DecidableEq, Repr

/-- Modelled from the spec: the AST node `Literal` (libyul/AST.h is not part of
the sources); a constant occurrence, carrying its value. -/
structure Literal where
  value : Nat
deriving DecidableEq, Repr

/-- Modelled from the spec: the AST variant `Expression` (libyul/AST.h is not
part of the sources): identifier read, literal, or builtin/function call with
nested argument expressions. -/
inductive Expression
  | functionCall (functionName : Identifier) (arguments : List Expression)
  | identifier (id : Identifier)
  | literal (lit : Literal)

/-- Modelled from the spec: `Scope::Function` (libyul/Scope.h is not part of
the sources): a user-defined function with its arities. -/
structure ScopeFunction where
  name : YulName
  numArguments : Nat
  numReturns : Nat
deriving DecidableEq, Repr

/-- Modelled from the spec: `Scope` (libyul/Scope.h is not part of the
sources): the symbol table resolving names to variables and functions. -/
structure Scope where
  boundVariables : List (YulName × Variable)
  functions : List ScopeFunction
deriving DecidableEq, Repr

/-- Modelled from the spec: `BuiltinFunction` (libyul/Dialect.h is not part of
the sources): a builtin with its declared input and output arity. -/
structure BuiltinFunction where
  name : YulName
  numParameters : Nat
  numReturns : Nat
deriving DecidableEq, Repr

/-- Modelled from the spec: `Dialect` (libyul/Dialect.h is not part of the
sources): the set of builtins available to the validated program. -/
structure Dialect where
  builtins : List BuiltinFunction
deriving DecidableEq, Repr

/-- Modelled from the spec: `Dialect::builtin(name)` (libyul/Dialect.h is not
part of the sources): the builtin of that name, if the dialect has one. -/
def Dialect.builtin (d : Dialect) (name : YulName) : Option BuiltinFunction :=
  d.builtins.find? (fun b => b.name == name)

/-- Modelled from the spec: `SSACFG::BuiltinCall` (SSAControlFlowGraph.h is not
part of the sources): the graph operation calling a builtin. -/
structure BuiltinCall where
  builtin : YulName
deriving DecidableEq, Repr

/-- Modelled from the spec: `SSACFG::Call` (SSAControlFlowGraph.h is not part
of the sources): the graph operation calling a user-defined function. -/
structure Call where
  function : YulName
deriving DecidableEq, Repr

/-- The parameter type `std::variant<SSACFG::BuiltinCall, SSACFG::Call>` of
`validateCall`. -/
inductive CallKind
  | builtinCall (call : BuiltinCall)
  | call (call : Call)
deriving DecidableEq, Repr

/-- Modelled from the spec: the terminator of a basic block
(SSAControlFlowGraph.h is not part of the sources): `Jump`,
`ConditionalJump` or `FunctionReturn`. -/
inductive Exit
  | jump (target : BlockId)
  | conditionalJump (condition : ValueId) (nonZeroTarget zeroTarget : BlockId)
  | functionReturn (returnValues : List ValueId)
deriving DecidableEq, Repr

/-- Modelled from the spec: `SSACFG::Operation` (SSAControlFlowGraph.h is not
part of the sources): one entry of a block's instruction stream. -/
structure Operation where
  outputs : List ValueId
  kind : CallKind
  inputs : List ValueId
deriving DecidableEq, Repr

/-- Modelled from the spec: `SSACFG::BasicBlock` (SSAControlFlowGraph.h is not
part of the sources): phi declarations, operation sequence and terminator. -/
structure BasicBlock where
  phis : List ValueId
  operations : List Operation
  exit : Exit
deriving DecidableEq, Repr

/-- Modelled from the spec: `SSACFG` (SSAControlFlowGraph.h is not part of the
sources).  The two accessors the validator uses are taken as they are: `block`
is `SSACFG::block(BlockId)` (no block for an id the graph does not know) and
`reachable a b` says that the graph's recorded edges make `b` reachable from
`a`. -/
structure SSACFG where
  block : BlockId → Option BasicBlock
  reachable : BlockId → BlockId → Bool

/-- The aggregate `SSACFGValidator::Context` (lines 32-37): four borrowed
references.
`analysisInfo` and `controlFlow` are kept as handles, their declarations not
being part of the sources. -/
structure Context where
  analysisInfo : Nat
  dialect : Dialect
  controlFlow : Nat
  cfg : SSACFG

/-! ## Validator state -/

/-- The alias `SSACFGValidator::VariableMapping` (line 31):
`std::map<Scope::Variable const*, std::set<SSACFG::ValueId>>`. -/
abbrev VariableMapping := AList (fun _ : Variable => Finset ValueId)

/-- The record `SSACFGValidator::LoopInfo` (lines 79-86). -/
structure LoopInfo where
  loopVariables : Finset Variable
  loopExitVariableValues : VariableMapping
  exitBlock : BlockId
  loopPostVariableValues : Option VariableMapping
  postBlock : Option BlockId

end Yul

/-- The data members of `class SSACFGValidator` (lines 74-87). -/
structure Yul.SSACFGValidator where
  m_context : Yul.Context
  m_scope : Option Yul.Scope
  m_currentBlock : Yul.BlockId
  m_currentOperation : Nat
  m_currentVariableValues : Yul.VariableMapping
  m_currentLoopInfo : Option Yul.LoopInfo

namespace Yul.SSACFGValidator

/-- The constructor `SSACFGValidator(Context const& _context)` (lines 38-39)
together with the default member initialisers (lines 75-87).  `w` is the width
of `size_t`; `defaultBlock` is the value a default-constructed
`SSACFG::BlockId` has (its declaration is not part of the sources). -/
def construct (w : Nat) (defaultBlock : BlockId) (_context : Context) : SSACFGValidator where
  m_context := _context
  m_scope := none
  m_currentBlock := defaultBlock
  m_currentOperation := sizeMax w
  m_currentVariableValues := ∅
  m_currentLoopInfo := none

/-- What a call of a member function that returns `α` and may mutate the
validator yields: the returned value with the validator it leaves, or the
fatal failure thrown. -/
abbrev Run (ε α : Type) := Except ε (α × SSACFGValidator)

/-- The type of `consumeExpression` (line 40, declared only): its body is not
part of the sources, so the functions that call it take it as a parameter. -/
abbrev ConsumeExpression :=
  Expression → SSACFGValidator → Run Fatal (Option (List (Finset ValueId)))

/-- How a call of `consumeUnaryExpression` can end fatally: its own
`yulAssert(result->size() == 1)` (line 45) fails, or `consumeExpression`
throws and the exception passes through the wrapper. -/
inductive UnaryFatal
  | sizeAssertion
  | fromConsumeExpression (failure : Fatal)
deriving DecidableEq, Repr

/-- The member function `consumeUnaryExpression` (lines 41-50): if
`consumeExpression` yields a result, assert that it has exactly one element
and return its front; otherwise return `std::nullopt`. -/
def consumeUnaryExpression (consumeExpression : ConsumeExpression)
    (_expression : Expression) (self : SSACFGValidator) :
    Run UnaryFatal (Option (Finset ValueId)) :=
  match consumeExpression _expression self with
  | .error failure => .error (.fromConsumeExpression failure)
  | .ok (some result, self') =>
    if h : result.length = 1 then
      .ok (some (result.get ⟨0, by omega⟩), self')
    else
      .error .sizeAssertion
  | .ok (none, self') => .ok (none, self')

/-- The member function `currentBlock() const` (lines 55-58): the block result paired with the
validator the call leaves. -/
def currentBlock (self : SSACFGValidator) : Option BasicBlock × SSACFGValidator :=
  (self.m_context.cfg.block self.m_currentBlock, self)

/-- Modelled from the spec: `resolveFunction` (line 60, declared only; its
body is not part of the sources) looks up a user-defined function in the
current scope; a name that is not a function there does not resolve. -/
def resolveFunction (self : SSACFGValidator) (_name : YulName) : Option ScopeFunction :=
  match self.m_scope with
  | none => none
  | some scope => scope.functions.find? (fun f => f.name == _name)

/-- Modelled from the spec: `validateCall` (lines 63-64, declared only; its
body is not part of the sources) checks that the callee reference resolves (a
builtin call in the dialect, a user-function call in the scope) and that the
callee's declared output arity matches `_numOutputs`; it returns true if the
call can continue and false when validation fails. -/
def validateCall (self : SSACFGValidator) (_kind : CallKind) (_functionName : Identifier)
    (_numOutputs : Nat) : Bool :=
  match _kind with
  | .builtinCall _ =>
    match self.m_context.dialect.builtin _functionName.name with
    | some builtin => builtin.numReturns == _numOutputs
    | none => false
  | .call _ =>
    match resolveFunction self _functionName.name with
    | some function => function.numReturns == _numOutputs
    | none => false

/-- The set a mapping binds to a variable; empty for a variable the mapping
has no entry for (not yet written on that path). -/
def valuesOf (mapping : VariableMapping) (var : Variable) : Finset ValueId :=
  (mapping.lookup var).getD ∅

/-- Modelled from the spec: the check `consolidateVariables` makes for one
variable of the expected mapping: its set must hold exactly one value id (the
expected singleton), and that id, the set's first element, must be a member
of the variable's set in every contributing mapping; otherwise the failure is
fatal. -/
def consolidateVariable (var : Variable) (values : Finset ValueId)
    (_toBeConsolidated : List VariableMapping) : Except Fatal Unit :=
  if h : values.card = 1 then
    let expected := values.min' (Finset.card_pos.1 (by omega))
    if _toBeConsolidated.all (fun mapping => decide (expected ∈ valuesOf mapping var)) then
      .ok ()
    else
      .error .bindingInconsistency
  else
    .error .bindingInconsistency

/-- Modelled from the spec: the loop of `consolidateVariables` over the
entries of the expected mapping, stopping at the first fatal failure. -/
def consolidateEntries :
    List (Sigma (fun _ : Variable => Finset ValueId)) → List VariableMapping → Except Fatal Unit
  | [], _ => .ok ()
  | entry :: rest, _toBeConsolidated =>
    match consolidateVariable entry.1 entry.2 _toBeConsolidated with
    | .ok () => consolidateEntries rest _toBeConsolidated
    | .error failure => .error failure

/-- Modelled from the spec: `consolidateVariables` (line 71, declared only; its
body is not part of the sources): given the phi-applied expected mapping at a
join block and the mappings gathered along each incoming path, it verifies
that for every variable the expected singleton value id is a member of the
corresponding set in every contributing mapping, and fails fatally if any path
disagrees.  It verifies only; the validator is not changed. -/
def consolidateVariables (_variables : VariableMapping)
    (_toBeConsolidated : List VariableMapping) : Except Fatal Unit :=
  consolidateEntries _variables.entries _toBeConsolidated

/-- Modelled from the spec: `advanceToBlock` (line 72, declared only; its body
is not part of the sources) requires that `_target` is reachable from the
current block per the graph's recorded edges, moves the cursor to `_target`
and resets the operation index to the start of the block; an unreachable
target is a fatal structural mismatch. -/
def advanceToBlock (_target : BlockId) (self : SSACFGValidator) : Except Fatal SSACFGValidator :=
  if self.m_context.cfg.reachable self.m_currentBlock _target then
    .ok { self with m_currentBlock := _target, m_currentOperation := 0 }
  else
    .error .structuralMismatch

/-! ## Concrete inputs used to evaluate the definitions -/

/-- A graph with blocks 0, 1, 2 and the edges 0 → 1 and 1 → 2. -/
def sampleGraph : SSACFG where
  block := fun id =>
    if id = 0 then some ⟨[], [], .jump 1⟩
    else if id = 1 then some ⟨[], [], .jump 2⟩
    else if id = 2 then some ⟨[], [], .functionReturn []⟩
    else none
  reachable := fun a b => (a == 0 && b == 1) || (a == 1 && b == 2)

/-- A dialect with the builtins `add` (one output) and `pop` (no output). -/
def sampleDialect : Dialect where
  builtins := [⟨"add", 2, 1⟩, ⟨"pop", 1, 0⟩]

/-- A context over `sampleGraph` and `sampleDialect`. -/
def sampleContext : Context where
  analysisInfo := 0
  dialect := sampleDialect
  controlFlow := 0
  cfg := sampleGraph

/-- A validator positioned at block 0 of `sampleGraph`, with one binding. -/
def sampleValidator : SSACFGValidator where
  m_context := sampleContext
  m_scope := none
  m_currentBlock := 0
  m_currentOperation := 3
  m_currentVariableValues := AList.insert 7 {4} ∅
  m_currentLoopInfo := none

/-- A stand-in for `consumeExpression` with the outcomes a real one can have:
a literal yields one singleton set, an identifier one set of two candidates, a
call of `pop` no value, a call of `pair` two values, a call of `nothing` one
empty set, a call of `bad` a fatal failure and any other call a structural
mismatch (none).  Each successful case advances the operation index. -/
def sampleConsumeExpression : ConsumeExpression := fun e self =>
  let self' := { self with m_currentOperation := self.m_currentOperation + 1 }
  match e with
  | .literal lit => .ok (some [{lit.value}], self')
  | .identifier _ => .ok (some [{1, 2}], self')
  | .functionCall f _ =>
    if f.name = "pop" then .ok (some [], self')
    else if f.name = "pair" then .ok (some [{1}, {2}], self')
    else if f.name = "nothing" then .ok (some [∅], self')
    else if f.name = "bad" then .error .bindingInconsistency
    else .ok (none, self')

/-- C1: when `consumeExpression` succeeds on an expression with a sequence of
exactly one value-id set `S`, `consumeUnaryExpression` succeeds on it and
returns exactly `S`, whatever the cardinality of `S`, leaving the validator
`consumeExpression` left. -/
theorem consumeUnaryExpression_single (consumeExpression : ConsumeExpression)
    (e : Expression) (self self' : SSACFGValidator) (S : Finset ValueId)
    (h : consumeExpression e self = .ok (some [S], self')) :
    consumeUnaryExpression consumeExpression e self = .ok (some S, self') := by
  simp [consumeUnaryExpression, h]

/-- C1 at concrete inputs: an empty set, a singleton and a two-member set are
each returned unchanged. -/
theorem consumeUnaryExpression_single_witness :
    consumeUnaryExpression sampleConsumeExpression (.functionCall ⟨"nothing"⟩ []) sampleValidator
        = .ok (some ∅, { sampleValidator with m_currentOperation := 4 })
    ∧ consumeUnaryExpression sampleConsumeExpression (.literal ⟨5⟩) sampleValidator
        = .ok (some {5}, { sampleValidator with m_currentOperation := 4 })
    ∧ consumeUnaryExpression sampleConsumeExpression (.identifier ⟨"x"⟩) sampleValidator
        = .ok (some {1, 2}, { sampleValidator with m_currentOperation := 4 }) :=
  ⟨consumeUnaryExpression_single _ _ _ _ _ rfl,
   consumeUnaryExpression_single _ _ _ _ _ rfl,
   consumeUnaryExpression_single _ _ _ _ _ rfl⟩

/-- C2: `consumeUnaryExpression` raises its exactly-one-value assertion if and
only if `consumeExpression` succeeds with a sequence whose length is not 1; in
particular an expression yielding zero values raises the assertion and is not
answered with the failure marker none.  (A failure thrown inside
`consumeExpression` is not the wrapper's assertion: it passes through.) -/
theorem consumeUnaryExpression_assertion_iff (consumeExpression : ConsumeExpression)
    (e : Expression) (self : SSACFGValidator) :
    (consumeUnaryExpression consumeExpression e self = .error .sizeAssertion
      ↔ ∃ result self', consumeExpression e self = .ok (some result, self')
          ∧ result.length ≠ 1)
    ∧ (∀ self', consumeExpression e self = .ok (some [], self') →
        consumeUnaryExpression consumeExpression e self = .error .sizeAssertion
        ∧ ∀ self'', consumeUnaryExpression consumeExpression e self ≠ .ok (none, self''))
    ∧ (∀ failure, consumeExpression e self = .error failure →
        consumeUnaryExpression consumeExpression e self
          = .error (.fromConsumeExpression failure)) := by
  refine ⟨?_, ?_, ?_⟩
  · constructor
    · intro h
      unfold consumeUnaryExpression at h
      split at h
      · simp at h
      · next result self' hce =>
        split at h
        · simp at h
        · next hlen => exact ⟨result, self', hce, hlen⟩
      · simp at h
    · rintro ⟨result, self', hce, hlen⟩
      simp [consumeUnaryExpression, hce, hlen]
  · intro self' hce
    simp [consumeUnaryExpression, hce]
  · intro failure hce
    simp [consumeUnaryExpression, hce]

/-- C2 at concrete inputs: a call yielding no value and a call yielding two
values raise the assertion; a call yielding one value does not. -/
theorem consumeUnaryExpression_assertion_witness :
    consumeUnaryExpression sampleConsumeExpression (.functionCall ⟨"pop"⟩ []) sampleValidator
        = .error .sizeAssertion
    ∧ consumeUnaryExpression sampleConsumeExpression (.functionCall ⟨"pair"⟩ []) sampleValidator
        = .error .sizeAssertion
    ∧ consumeUnaryExpression sampleConsumeExpression (.literal ⟨5⟩) sampleValidator
        ≠ .error .sizeAssertion
    ∧ consumeUnaryExpression sampleConsumeExpression (.functionCall ⟨"bad"⟩ []) sampleValidator
        = .error (.fromConsumeExpression .bindingInconsistency) :=
  ⟨((consumeUnaryExpression_assertion_iff sampleConsumeExpression
      (.functionCall ⟨"pop"⟩ []) sampleValidator).2.1 _ rfl).1,
   (consumeUnaryExpression_assertion_iff sampleConsumeExpression
      (.functionCall ⟨"pair"⟩ []) sampleValidator).1.2 ⟨[{1}, {2}], _, rfl, by decide⟩,
   fun h => by
    obtain ⟨result, self', hce, hlen⟩ :=
      (consumeUnaryExpression_assertion_iff sampleConsumeExpression
        (.literal ⟨5⟩) sampleValidator).1.1 h
    simp only [sampleConsumeExpression, Except.ok.injEq, Prod.mk.injEq, Option.some.injEq] at hce
    exact hlen (by rw [← hce.1]; rfl),
   (consumeUnaryExpression_assertion_iff sampleConsumeExpression
      (.functionCall ⟨"bad"⟩ []) sampleValidator).2.2 _ rfl⟩

/-- C8: `consumeUnaryExpression` returns the failure marker none exactly when
`consumeExpression` returns none (leaving the same validator); a structural
mismatch reported by `consumeExpression` is passed on as none and does not
raise the exactly-one-value assertion. -/
theorem consumeUnaryExpression_none_iff (consumeExpression : ConsumeExpression)
    (e : Expression) (self : SSACFGValidator) :
    (∀ self', consumeUnaryExpression consumeExpression e self = .ok (none, self')
        ↔ consumeExpression e self = .ok (none, self'))
    ∧ ((∃ self', consumeExpression e self = .ok (none, self')) →
        consumeUnaryExpression consumeExpression e self ≠ .error .sizeAssertion) := by
  refine ⟨fun self' => ⟨?_, ?_⟩, ?_⟩
  · intro h
    unfold consumeUnaryExpression at h
    split at h
    · simp at h
    · split at h <;> simp at h
    · next self'' hce =>
      simp only [Except.ok.injEq, Prod.mk.injEq, true_and] at h
      rw [hce, h]
  · intro hce
    simp [consumeUnaryExpression, hce]
  · rintro ⟨self', hce⟩
    simp [consumeUnaryExpression, hce]

/-- C8 at concrete inputs: a mismatch is passed on as none; a one-value
expression is not answered with none. -/
theorem consumeUnaryExpression_none_witness :
    consumeUnaryExpression sampleConsumeExpression (.functionCall ⟨"f"⟩ []) sampleValidator
        = .ok (none, { sampleValidator with m_currentOperation := 4 })
    ∧ consumeUnaryExpression sampleConsumeExpression (.functionCall ⟨"f"⟩ []) sampleValidator
        ≠ .error .sizeAssertion :=
  ⟨((consumeUnaryExpression_none_iff sampleConsumeExpression
      (.functionCall ⟨"f"⟩ []) sampleValidator).1 _).2 rfl,
   (consumeUnaryExpression_none_iff sampleConsumeExpression
      (.functionCall ⟨"f"⟩ []) sampleValidator).2 ⟨_, rfl⟩⟩

/-- C10: whenever `consumeUnaryExpression` returns (a set or none), the
validator it leaves is exactly the validator `consumeExpression` leaves from
the same starting validator: the wrapper adds no state change of its own. -/
theorem consumeUnaryExpression_state (consumeExpression : ConsumeExpression)
    (e : Expression) (self self' : SSACFGValidator) (r : Option (Finset ValueId))
    (h : consumeUnaryExpression consumeExpression e self = .ok (r, self')) :
    ∃ result, consumeExpression e self = .ok (result, self') := by
  unfold consumeUnaryExpression at h
  split at h
  · simp at h
  · next result self'' hce =>
    split at h
    · simp only [Except.ok.injEq, Prod.mk.injEq] at h
      exact ⟨some result, by rw [hce, h.2]⟩
    · simp at h
  · next self'' hce =>
    simp only [Except.ok.injEq, Prod.mk.injEq] at h
    exact ⟨none, by rw [hce, h.2]⟩

/-- C10 at a concrete input: the validator left by the wrapper on a literal is
the one `consumeExpression` leaves, operation index advanced by one. -/
theorem consumeUnaryExpression_state_witness :
    ∃ result, sampleConsumeExpression (.literal ⟨5⟩) sampleValidator
      = .ok (result, { sampleValidator with m_currentOperation := 4 }) :=
  consumeUnaryExpression_state sampleConsumeExpression (.literal ⟨5⟩) sampleValidator
    { sampleValidator with m_currentOperation := 4 } (some {5}) rfl

/-- X1: `consumeUnaryExpression` returns a set `S` (leaving `self'`) exactly
when `consumeExpression` returned the one-element sequence holding `S`
(leaving `self'`): a returned set never comes from a longer sequence. -/
theorem consumeUnaryExpression_some_iff (consumeExpression : ConsumeExpression)
    (e : Expression) (self self' : SSACFGValidator) (S : Finset ValueId) :
    consumeUnaryExpression consumeExpression e self = .ok (some S, self')
      ↔ consumeExpression e self = .ok (some [S], self') := by
  constructor
  · intro h
    unfold consumeUnaryExpression at h
    split at h
    · simp at h
    · next result self'' hce =>
      split at h
      · next hlen =>
        simp only [Except.ok.injEq, Prod.mk.injEq, Option.some.injEq] at h
        obtain ⟨a, rfl⟩ := List.length_eq_one.1 hlen
        simp only [List.get_eq_getElem, List.getElem_cons_zero] at h
        rw [hce, h.1, h.2]
      · simp at h
    · simp at h
  · intro hce
    simp [consumeUnaryExpression, hce]

/-! ## `currentBlock` and the constructor -/

/-- C7: `currentBlock()` returns what the context's graph associates with the
current-block cursor, `cfg.block(m_currentBlock)`, and leaves the validator as
it was. -/
theorem currentBlock_spec (self : SSACFGValidator) :
    (currentBlock self).1 = self.m_context.cfg.block self.m_currentBlock
    ∧ (currentBlock self).2 = self :=
  ⟨rfl, rfl⟩

/-- C7 at a concrete input: at block 0 of the sample graph. -/
theorem currentBlock_witness :
    (currentBlock sampleValidator).1 = some ⟨[], [], .jump 1⟩
    ∧ (currentBlock sampleValidator).2 = sampleValidator :=
  ⟨(currentBlock_spec sampleValidator).1.trans rfl, (currentBlock_spec sampleValidator).2⟩

/-- C9: a validator freshly constructed from a context is in the empty replay
state: no entry in the variable mapping, no active `LoopInfo`, null scope,
current-operation index at the maximum of `size_t` (`2^w - 1`, which is
`2^64 - 1 = 18446744073709551615` for `w = 64`), and the context it was
given. -/
theorem construct_spec (w : Nat) (defaultBlock : BlockId) (_context : Context) :
    (construct w defaultBlock _context).m_currentVariableValues.entries = []
    ∧ (construct w defaultBlock _context).m_currentLoopInfo = none
    ∧ (construct w defaultBlock _context).m_scope = none
    ∧ (construct w defaultBlock _context).m_currentOperation = 2 ^ w - 1
    ∧ (construct 64 defaultBlock _context).m_currentOperation = 18446744073709551615
    ∧ (construct w defaultBlock _context).m_context = _context := by
  refine ⟨rfl, rfl, rfl, rfl, ?_, rfl⟩
  show sizeMax 64 = 18446744073709551615
  norm_num [sizeMax]

/-- C9 at a concrete input: a 64-bit validator over the sample context. -/
theorem construct_witness :
    (construct 64 0 sampleContext).m_currentVariableValues.entries = []
    ∧ (construct 64 0 sampleContext).m_currentLoopInfo = none
    ∧ (construct 64 0 sampleContext).m_scope = none
    ∧ (construct 64 0 sampleContext).m_currentOperation = 2 ^ 64 - 1
    ∧ (construct 64 0 sampleContext).m_currentOperation = 18446744073709551615
    ∧ (construct 64 0 sampleContext).m_context = sampleContext :=
  construct_spec 64 0 sampleContext

/-! ## `consolidateVariables` -/

/-- The check of one variable passes exactly when its expected set is a
singleton whose member every contributing mapping holds for that variable. -/
theorem consolidateVariable_ok_iff (var : Variable) (values : Finset ValueId)
    (contributions : List VariableMapping) :
    consolidateVariable var values contributions = .ok ()
      ↔ ∃ v, values = {v} ∧ ∀ m ∈ contributions, v ∈ valuesOf m var := by
  unfold consolidateVariable
  split
  · next hcard =>
    obtain ⟨a, rfl⟩ := Finset.card_eq_one.1 hcard
    simp only [Finset.min'_singleton]
    constructor
    · intro h
      split at h
      · next hall =>
        exact ⟨a, rfl, fun m hm => by simpa using (List.all_eq_true.1 hall) m hm⟩
      · simp at h
    · rintro ⟨v, hv, hmem⟩
      have hva : a = v := by simpa using hv
      subst hva
      rw [if_pos]
      exact List.all_eq_true.2 (fun m hm => by simpa using hmem m hm)
  · next hcard =>
    constructor
    · intro h; simp at h
    · rintro ⟨v, rfl, -⟩
      exact absurd (Finset.card_singleton v) hcard

/-- A failing check of one variable fails with a binding inconsistency. -/
theorem consolidateVariable_error (var : Variable) (values : Finset ValueId)
    (contributions : List VariableMapping) (failure : Fatal)
    (h : consolidateVariable var values contributions = .error failure) :
    failure = .bindingInconsistency := by
  unfold consolidateVariable at h
  split at h
  · simp only at h
    split at h
    · simp at h
    · simpa using h.symm
  · simpa using h.symm

/-- The loop over the expected entries passes exactly when every entry's check
passes. -/
theorem consolidateEntries_ok_iff
    (entries : List (Sigma (fun _ : Variable => Finset ValueId)))
    (contributions : List VariableMapping) :
    consolidateEntries entries contributions = .ok ()
      ↔ ∀ entry ∈ entries, consolidateVariable entry.1 entry.2 contributions = .ok () := by
  induction entries with
  | nil => simp [consolidateEntries]
  | cons entry rest ih =>
    unfold consolidateEntries
    split
    · next hok => simp [ih, hok]
    · next failure herr => simp [herr]

/-- The loop over the expected entries either passes or fails with a binding
inconsistency. -/
theorem consolidateEntries_total
    (entries : List (Sigma (fun _ : Variable => Finset ValueId)))
    (contributions : List VariableMapping) :
    consolidateEntries entries contributions = .ok ()
      ∨ consolidateEntries entries contributions = .error .bindingInconsistency := by
  induction entries with
  | nil => simp [consolidateEntries]
  | cons entry rest ih =>
    unfold consolidateEntries
    split
    · exact ih
    · next failure herr =>
      rw [consolidateVariable_error _ _ _ _ herr]
      exact Or.inr rfl

/-- C3: `consolidateVariables(expected, contributions)` completes without a
fatal failure if and only if, for every variable of the expected mapping, its
single expected value id is a member of that variable's set in every
contributing mapping; if one contributing mapping lacks that value id for some
variable, it fails fatally. -/
theorem consolidateVariables_ok_iff (expected : VariableMapping)
    (contributions : List VariableMapping) :
    (consolidateVariables expected contributions = .ok ()
      ↔ ∀ var values, expected.lookup var = some values →
          ∃ v, values = {v} ∧ ∀ m ∈ contributions, v ∈ valuesOf m var)
    ∧ ((∃ var v m, expected.lookup var = some {v} ∧ m ∈ contributions ∧ v ∉ valuesOf m var) →
        consolidateVariables expected contributions = .error .bindingInconsistency) := by
  have hiff : consolidateVariables expected contributions = .ok ()
      ↔ ∀ var values, expected.lookup var = some values →
          ∃ v, values = {v} ∧ ∀ m ∈ contributions, v ∈ valuesOf m var := by
    unfold consolidateVariables
    rw [consolidateEntries_ok_iff]
    constructor
    · intro h var values hlookup
      have hmem : (⟨var, values⟩ : Sigma (fun _ : Variable => Finset ValueId)) ∈ expected.entries :=
        AList.mem_lookup_iff.1 (by simpa using hlookup)
      exact (consolidateVariable_ok_iff var values contributions).1 (h _ hmem)
    · intro h entry hmem
      obtain ⟨var, values⟩ := entry
      have hlookup : expected.lookup var = some values := by
        simpa using (AList.mem_lookup_iff (s := expected)).2 hmem
      exact (consolidateVariable_ok_iff var values contributions).2 (h var values hlookup)
  refine ⟨hiff, ?_⟩
  rintro ⟨var, v, m, hlookup, hm, hnot⟩
  rcases consolidateEntries_total expected.entries contributions with hok | herr
  · obtain ⟨v', hv', hall⟩ := hiff.1 hok var {v} hlookup
    have : v = v' := by simpa using hv'
    subst this
    exact absurd (hall m hm) hnot
  · exact herr

/-- C3 at concrete inputs: two paths that both hold the expected value pass; a
path that lacks it fails fatally. -/
theorem consolidateVariables_witness :
    consolidateVariables (AList.insert 7 {4} ∅)
        [AList.insert 7 {4, 5} ∅, AList.insert 7 {3, 4} ∅] = .ok ()
    ∧ consolidateVariables (AList.insert 7 {4} ∅)
        [AList.insert 7 {4, 5} ∅, AList.insert 7 {3} ∅] = .error .bindingInconsistency :=
  ⟨by rfl,
   (consolidateVariables_ok_iff (AList.insert 7 {4} ∅)
      [AList.insert 7 {4, 5} ∅, AList.insert 7 {3} ∅]).2
      ⟨7, 4, AList.insert 7 {3} ∅, by decide, by simp, by decide⟩⟩

/-! ## `validateCall` -/

/-- C4: for a builtin declared with `M = builtin.numReturns` outputs and an
expected output count `K ≠ M`, `validateCall` on a call of that builtin with
`numOutputs = K` returns false. -/
theorem validateCall_arity_mismatch (self : SSACFGValidator) (call : BuiltinCall)
    (functionName : Identifier) (builtin : BuiltinFunction) (K : Nat)
    (hdeclared : self.m_context.dialect.builtin functionName.name = some builtin)
    (hK : K ≠ builtin.numReturns) :
    validateCall self (.builtinCall call) functionName K = false := by
  simp only [validateCall, hdeclared]
  simpa using fun h => hK h.symm

/-- C4 at a concrete input: `add` is declared with one output; expecting two
fails, and so does expecting none. -/
theorem validateCall_arity_mismatch_witness :
    validateCall sampleValidator (.builtinCall ⟨"add"⟩) ⟨"add"⟩ 2 = false
    ∧ validateCall sampleValidator (.builtinCall ⟨"add"⟩) ⟨"add"⟩ 0 = false
    ∧ validateCall sampleValidator (.builtinCall ⟨"add"⟩) ⟨"add"⟩ 1 = true :=
  ⟨validateCall_arity_mismatch sampleValidator ⟨"add"⟩ ⟨"add"⟩ ⟨"add", 2, 1⟩ 2
      (by decide) (by decide),
   validateCall_arity_mismatch sampleValidator ⟨"add"⟩ ⟨"add"⟩ ⟨"add", 2, 1⟩ 0
      (by decide) (by decide),
   by decide⟩

/-! ## `consumeBlock` -/

/-- C6: for a target the graph records as reachable from the current block,
`advanceToBlock(target)` sets the current-block cursor to the target and
resets the current-operation index, leaving the variable mapping (and scope,
loop info and context) unchanged; for a target that is not reachable it fails
fatally. -/
theorem advanceToBlock_spec (target : BlockId) (self : SSACFGValidator) :
    (self.m_context.cfg.reachable self.m_currentBlock target = true →
      ∃ self', advanceToBlock target self = .ok self'
        ∧ self'.m_currentBlock = target
        ∧ self'.m_currentOperation = 0
        ∧ self'.m_currentVariableValues = self.m_currentVariableValues
        ∧ self'.m_scope = self.m_scope
        ∧ self'.m_currentLoopInfo = self.m_currentLoopInfo
        ∧ self'.m_context = self.m_context)
    ∧ (self.m_context.cfg.reachable self.m_currentBlock target = false →
      advanceToBlock target self = .error .structuralMismatch) := by
  constructor
  · intro h
    exact ⟨{ self with m_currentBlock := target, m_currentOperation := 0 },
      by simp [advanceToBlock, h], rfl, rfl, rfl, rfl, rfl, rfl⟩
  · intro h
    simp [advanceToBlock, h]

/-- C6 at concrete inputs: from block 0 of the sample graph, block 1 is
reachable and block 2 is not. -/
theorem advanceToBlock_witness :
    (∃ self', advanceToBlock 1 sampleValidator = .ok self'
        ∧ self'.m_currentBlock = 1
        ∧ self'.m_currentOperation = 0
        ∧ self'.m_currentVariableValues = sampleValidator.m_currentVariableValues
        ∧ self'.m_scope = sampleValidator.m_scope
        ∧ self'.m_currentLoopInfo = sampleValidator.m_currentLoopInfo
        ∧ self'.m_context = sampleValidator.m_context)
    ∧ advanceToBlock 2 sampleValidator = .error .structuralMismatch :=
  ⟨(advanceToBlock_spec 1 sampleValidator).1 rfl, (advanceToBlock_spec 2 sampleValidator).2 rfl⟩

end Yul.SSACFGValidator
